import Mathlib

/-!
Verification of the dynamic level filter crate: a runtime-mutable registry
mapping filter names to severity thresholds, with a filter evaluation rule
comparing a log record severity against the registered threshold.

The embedding follows `src/src/lib.rs`. The global
`DYNAMIC_LEVEL_FILTERS : RwLock<HashMap<String, LevelFilter>>` is modelled as
an explicit state value of type `Registry` threaded through the operations.
-/

/-- The `log` crate `Level` enumeration carried by a record. Its numeric
values are `Error = 1, …, Trace = 5` (higher value means more verbose). -/
inductive Level : Type
  | Error
  | Warn
  | Info
  | Debug
  | Trace
deriving DecidableEq

/-- The `log` crate `LevelFilter` enumeration used as a threshold. Its
numeric values are `Off = 0, Error = 1, …, Trace = 5`. -/
inductive LevelFilter : Type
  | Off
  | Error
  | Warn
  | Info
  | Debug
  | Trace
deriving DecidableEq

/-- Numeric value of a `Level`, as in the `log` crate `usize` representation. -/
def Level.toNat : Level → Nat
  | .Error => 1
  | .Warn => 2
  | .Info => 3
  | .Debug => 4
  | .Trace => 5

/-- Numeric value of a `LevelFilter`, as in the `log` crate representation. -/
def LevelFilter.toNat : LevelFilter → Nat
  | .Off => 0
  | .Error => 1
  | .Warn => 2
  | .Info => 3
  | .Debug => 4
  | .Trace => 5

/-- A record severity `s` is strictly more verbose than a threshold `t` when
it lies strictly toward the `Trace` end of the severity order (in the `log`
crate encoding, a strictly larger numeric value). -/
def Level.moreVerboseThan (s : Level) (t : LevelFilter) : Prop :=
  t.toNat < s.toNat

instance (s : Level) (t : LevelFilter) : Decidable (s.moreVerboseThan t) := by
  unfold Level.moreVerboseThan
  infer_instance

/-- The `log4rs` filter `Response` enumeration. -/
inductive Response : Type
  | Accept
  | Neutral
  | Reject
deriving DecidableEq

/-- The state of the global `DYNAMIC_LEVEL_FILTERS` map: a partial map from
filter names to their current threshold. -/
abbrev Registry : Type := String → Option LevelFilter

/-- The registry before any filter has been registered (the lazily
initialised `RwLock::default()` map is empty). -/
def Registry.empty : Registry := fun _ => none

/-- A `DynamicLevelFilter` handle holds only its name. -/
structure DynamicLevelFilter : Type where
  name : String
deriving DecidableEq

/-- `DynamicLevelFilter::new`: if the name is not in the registry, insert it
with `starting_level`; either way return a handle carrying the name. The
returned pair is (registry after the call, constructed handle). -/
def DynamicLevelFilter.new (reg : Registry) (name : String)
    (starting_level : LevelFilter) : Registry × DynamicLevelFilter :=
  if (reg name).isSome then
    (reg, ⟨name⟩)
  else
    (fun k => if k = name then some starting_level else reg k, ⟨name⟩)

/-- `DynamicLevelFilter::set`: if the name is registered, replace its level;
otherwise leave the registry untouched. -/
def DynamicLevelFilter.set (reg : Registry) (name : String)
    (level : LevelFilter) : Registry :=
  match reg name with
  | some _ => fun k => if k = name then some level else reg k
  | none => reg

/-- `Filter::filter` for `DynamicLevelFilter`: look the name up in the
registry and compare the record level against the stored threshold. The
source unwraps the lookup; a missing name is modelled as `none` (a panic). -/
def DynamicLevelFilter.filter (reg : Registry) (f : DynamicLevelFilter)
    (recordLevel : Level) : Option Response :=
  match reg f.name with
  | some level =>
      some (if level.toNat < recordLevel.toNat then Response.Reject
            else Response.Neutral)
  | none => none

/-- The operations of the public API that touch the registry. Evaluation
(`Filter::filter`) takes a shared reference and a read lock only; it cannot
write the map, so its registry effect is the identity. -/
inductive Op : Type
  | create (name : String) (level : LevelFilter)
  | setLevel (name : String) (level : LevelFilter)
  | evaluate (name : String) (s : Level)

/-- Effect of a single API operation on the registry state. -/
def applyOp (reg : Registry) : Op → Registry
  | .create n t => (DynamicLevelFilter.new reg n t).1
  | .setLevel n t => DynamicLevelFilter.set reg n t
  | .evaluate _ _ => reg

/-- Effect of a sequence of API operations on the registry state. -/
def applyOps (reg : Registry) : List Op → Registry
  | [] => reg
  | op :: rest => applyOps (applyOp reg op) rest

/-- The declarative configuration record after field parsing, as in the
source struct `DynamicLevelFilterConfig`. -/
structure DynamicLevelFilterConfig : Type where
  name : String
  default : LevelFilter
deriving DecidableEq

/-- `DynamicLevelFilterDeserializer::deserialize`: unconditionally builds the
filter from the parsed record via `DynamicLevelFilter::new` and returns it
inside `Ok`. -/
def DynamicLevelFilterDeserializer.deserialize (reg : Registry)
    (config : DynamicLevelFilterConfig) :
    Except String (Registry × DynamicLevelFilter) :=
  Except.ok (DynamicLevelFilter.new reg config.name config.default)

/-- Modelled from the spec: the raw declarative record as seen by the
external config loader before schema binding, with possibly missing fields
and a textual severity token. The serde-derived field parsing of
`DynamicLevelFilterConfig` is generated code outside the source tree. -/
structure RawConfigRecord : Type where
  name : Option String
  defaultToken : Option String

/-- Modelled from the spec: parsing of a severity token, a case-insensitive
textual enumeration `trace|debug|info|warn|error|off`. -/
def parseLevelToken (tok : String) : Option LevelFilter :=
  match tok.toLower with
  | "off" => some .Off
  | "error" => some .Error
  | "warn" => some .Warn
  | "info" => some .Info
  | "debug" => some .Debug
  | "trace" => some .Trace
  | _ => none

/-- Modelled from the spec: schema binding of a raw record into
`DynamicLevelFilterConfig`, failing exactly on a missing field or an
unparseable severity token. -/
def parseConfigRecord (r : RawConfigRecord) :
    Except String DynamicLevelFilterConfig :=
  match r.name, r.defaultToken with
  | some n, some tok =>
      match parseLevelToken tok with
      | some lv => Except.ok ⟨n, lv⟩
      | none => Except.error "unparseable severity token"
  | _, _ => Except.error "missing field"

/-- The full configuration-load path for one record: bind the raw record and
hand the parsed config to the deserializer. -/
def loadConfig (reg : Registry) (r : RawConfigRecord) :
    Except String (Registry × DynamicLevelFilter) :=
  match parseConfigRecord r with
  | Except.ok c => DynamicLevelFilterDeserializer.deserialize reg c
  | Except.error e => Except.error e

/-- A raw record is well formed when both fields are present and the
severity token parses. -/
def RawConfigRecord.wellFormed (r : RawConfigRecord) : Prop :=
  r.name.isSome = true ∧
    ∃ tok, r.defaultToken = some tok ∧ (parseLevelToken tok).isSome = true

/-! Helper lemmas about the three operations. -/

theorem new_fst_of_present (reg : Registry) (n : String) (t : LevelFilter)
    (h : (reg n).isSome) : (DynamicLevelFilter.new reg n t).1 = reg := by
  unfold DynamicLevelFilter.new
  simp [h]

theorem new_fst_of_absent (reg : Registry) (n : String) (t : LevelFilter)
    (h : reg n = none) :
    (DynamicLevelFilter.new reg n t).1 =
      fun k => if k = n then some t else reg k := by
  unfold DynamicLevelFilter.new
  simp [h]

theorem new_snd_name (reg : Registry) (n : String) (t : LevelFilter) :
    (DynamicLevelFilter.new reg n t).2 = ⟨n⟩ := by
  unfold DynamicLevelFilter.new
  split <;> rfl

theorem new_self_present (reg : Registry) (n : String) (t : LevelFilter) :
    ((DynamicLevelFilter.new reg n t).1 n).isSome := by
  cases hc : reg n with
  | none =>
      rw [new_fst_of_absent reg n t hc]
      simp
  | some t0 =>
      rw [new_fst_of_present reg n t (by rw [hc]; rfl), hc]
      rfl

theorem set_of_absent (reg : Registry) (n : String) (t : LevelFilter)
    (h : reg n = none) : DynamicLevelFilter.set reg n t = reg := by
  unfold DynamicLevelFilter.set
  rw [h]

theorem set_of_present (reg : Registry) (n : String) (t t0 : LevelFilter)
    (h : reg n = some t0) :
    DynamicLevelFilter.set reg n t =
      fun k => if k = n then some t else reg k := by
  unfold DynamicLevelFilter.set
  rw [h]

theorem filter_eval (reg : Registry) (f : DynamicLevelFilter)
    (t : LevelFilter) (s : Level) (h : reg f.name = some t) :
    DynamicLevelFilter.filter reg f s =
      some (if t.toNat < s.toNat then Response.Reject else Response.Neutral) := by
  unfold DynamicLevelFilter.filter
  rw [h]

theorem applyOp_preserves_presence (reg : Registry) (n : String) (op : Op)
    (h : (reg n).isSome) : ((applyOp reg op) n).isSome := by
  cases op with
  | create m t =>
      show (((DynamicLevelFilter.new reg m t).1) n).isSome
      cases hm : reg m with
      | none =>
          rw [new_fst_of_absent reg m t hm]
          by_cases hk : n = m
          · simp [hk]
          · simp [hk, h]
      | some t0 =>
          rw [new_fst_of_present reg m t (by rw [hm]; rfl)]
          exact h
  | setLevel m t =>
      show ((DynamicLevelFilter.set reg m t) n).isSome
      cases hm : reg m with
      | none =>
          rw [set_of_absent reg m t hm]
          exact h
      | some t0 =>
          rw [set_of_present reg m t t0 hm]
          by_cases hk : n = m
          · simp [hk]
          · simp [hk, h]
  | evaluate m s => exact h

theorem applyOps_preserves_presence (ops : List Op) (reg : Registry)
    (n : String) (h : (reg n).isSome) : ((applyOps reg ops) n).isSome := by
  induction ops generalizing reg with
  | nil => exact h
  | cons op rest ih =>
      show ((applyOps (applyOp reg op) rest) n).isSome
      exact ih (applyOp reg op) (applyOp_preserves_presence reg n op h)

/-! The claims. -/

/-- Claim C1: for every handle whose name is currently registered at
threshold `t`, evaluation returns Reject exactly when the record severity is
strictly more verbose than `t`, returns Neutral whenever it is not, and never
returns Accept. -/
theorem filter_two_valued_threshold_rule (reg : Registry)
    (f : DynamicLevelFilter) (t : LevelFilter) (s : Level)
    (h : reg f.name = some t) :
    (DynamicLevelFilter.filter reg f s = some Response.Reject ↔
      s.moreVerboseThan t) ∧
    (¬ s.moreVerboseThan t →
      DynamicLevelFilter.filter reg f s = some Response.Neutral) ∧
    DynamicLevelFilter.filter reg f s ≠ some Response.Accept := by
  rw [filter_eval reg f t s h]
  unfold Level.moreVerboseThan
  by_cases hc : t.toNat < s.toNat
  · simp [hc]
  · simp [hc]

/-- Witness for C1 at a concrete input: name registered at Info, record at
Debug (strictly more verbose). -/
theorem filter_two_valued_threshold_rule_witness :
    (DynamicLevelFilter.filter
        (DynamicLevelFilter.new Registry.empty "a" LevelFilter.Info).1
        ⟨"a"⟩ Level.Debug = some Response.Reject ↔
      Level.Debug.moreVerboseThan LevelFilter.Info) ∧
    (¬ Level.Debug.moreVerboseThan LevelFilter.Info →
      DynamicLevelFilter.filter
        (DynamicLevelFilter.new Registry.empty "a" LevelFilter.Info).1
        ⟨"a"⟩ Level.Debug = some Response.Neutral) ∧
    DynamicLevelFilter.filter
        (DynamicLevelFilter.new Registry.empty "a" LevelFilter.Info).1
        ⟨"a"⟩ Level.Debug ≠ some Response.Accept :=
  filter_two_valued_threshold_rule _ ⟨"a"⟩ LevelFilter.Info Level.Debug (by decide)

/-- Claim C2: registration is idempotent with first-writer-wins. Starting
from a registry where `n` is absent, `new n t1` then `new n t2` leaves the
registry exactly as after the first call, with the value for `n` equal to
`t1`. -/
theorem new_idempotent_first_writer_wins (reg : Registry) (n : String)
    (t1 t2 : LevelFilter) (habs : reg n = none) (hne : t1 ≠ t2) :
    (DynamicLevelFilter.new (DynamicLevelFilter.new reg n t1).1 n t2).1 =
      (DynamicLevelFilter.new reg n t1).1 ∧
    (DynamicLevelFilter.new (DynamicLevelFilter.new reg n t1).1 n t2).1 n =
      some t1 := by
  have h1 : (DynamicLevelFilter.new reg n t1).1 n = some t1 := by
    rw [new_fst_of_absent reg n t1 habs]
    simp
  have h2 := new_fst_of_present (DynamicLevelFilter.new reg n t1).1 n t2
    (by rw [h1]; rfl)
  exact ⟨h2, by rw [h2, h1]⟩

/-- Witness for C2 at a concrete input: empty registry, t1 = Debug,
t2 = Warn. -/
theorem new_idempotent_first_writer_wins_witness :
    (DynamicLevelFilter.new
        (DynamicLevelFilter.new Registry.empty "a" LevelFilter.Debug).1
        "a" LevelFilter.Warn).1 =
      (DynamicLevelFilter.new Registry.empty "a" LevelFilter.Debug).1 ∧
    (DynamicLevelFilter.new
        (DynamicLevelFilter.new Registry.empty "a" LevelFilter.Debug).1
        "a" LevelFilter.Warn).1 "a" = some LevelFilter.Debug :=
  new_idempotent_first_writer_wins Registry.empty "a" LevelFilter.Debug
    LevelFilter.Warn rfl (by decide)

/-- Claim C3: after `new n t1` followed by `set n t2`, every evaluation on
any handle carrying name `n` (whenever it was constructed) decides with
threshold `t2`, from any starting registry. -/
theorem set_affects_all_handles (reg : Registry) (n : String)
    (t1 t2 : LevelFilter) (f : DynamicLevelFilter) (s : Level)
    (hf : f.name = n) :
    DynamicLevelFilter.filter
        (DynamicLevelFilter.set (DynamicLevelFilter.new reg n t1).1 n t2) f s =
      some (if t2.toNat < s.toNat then Response.Reject else Response.Neutral) := by
  obtain ⟨t0, ht0⟩ := Option.isSome_iff_exists.mp (new_self_present reg n t1)
  rw [set_of_present _ n t2 t0 ht0]
  refine filter_eval _ f t2 s ?_
  rw [hf]
  simp

/-- Witness for C3 at a concrete input: create "g" at Error, set it to Info,
evaluate a handle named "g" on an Info record. -/
theorem set_affects_all_handles_witness :
    DynamicLevelFilter.filter
        (DynamicLevelFilter.set
          (DynamicLevelFilter.new Registry.empty "g" LevelFilter.Error).1
          "g" LevelFilter.Info)
        ⟨"g"⟩ Level.Info =
      some (if LevelFilter.Info.toNat < Level.Info.toNat then Response.Reject
            else Response.Neutral) :=
  set_affects_all_handles Registry.empty "g" LevelFilter.Error LevelFilter.Info
    ⟨"g"⟩ Level.Info rfl

/-- Claim C4: for a name absent from the registry, `set` is a no-op leaving
the registry unchanged, and a later `new` on that name establishes the level
given to `new`, not the one given to the ignored `set`. -/
theorem set_unknown_name_noop (reg : Registry) (n : String)
    (t t2 : LevelFilter) (h : reg n = none) :
    DynamicLevelFilter.set reg n t = reg ∧
    (DynamicLevelFilter.new (DynamicLevelFilter.set reg n t) n t2).1 n =
      some t2 := by
  refine ⟨set_of_absent reg n t h, ?_⟩
  rw [set_of_absent reg n t h, new_fst_of_absent reg n t2 h]
  simp

/-- Witness for C4 at a concrete input: set an unregistered name to Warn,
then register it at Trace. -/
theorem set_unknown_name_noop_witness :
    DynamicLevelFilter.set Registry.empty "nonexistent" LevelFilter.Warn =
      Registry.empty ∧
    (DynamicLevelFilter.new
        (DynamicLevelFilter.set Registry.empty "nonexistent" LevelFilter.Warn)
        "nonexistent" LevelFilter.Trace).1 "nonexistent" =
      some LevelFilter.Trace :=
  set_unknown_name_noop Registry.empty "nonexistent" LevelFilter.Warn
    LevelFilter.Trace rfl

/-- Claim C6: for a handle obtained from `new`, the registry lookup inside
evaluation succeeds after any further sequence of API operations: the filter
never reaches the missing-name branch through the public API. -/
theorem registry_lookup_in_filter_succeeds (reg : Registry) (n : String)
    (t : LevelFilter) (ops : List Op) (s : Level) :
    (DynamicLevelFilter.filter
        (applyOps (DynamicLevelFilter.new reg n t).1 ops)
        (DynamicLevelFilter.new reg n t).2 s).isSome := by
  rw [new_snd_name]
  have h2 := applyOps_preserves_presence ops (DynamicLevelFilter.new reg n t).1
    n (new_self_present reg n t)
  obtain ⟨t0, ht0⟩ := Option.isSome_iff_exists.mp h2
  rw [filter_eval _ ⟨n⟩ t0 s ht0]
  rfl

/-- Claim C7: a name present in the registry stays present with some
threshold after any sequence of create, set and evaluate operations. -/
theorem registry_entries_never_removed (reg : Registry) (n : String)
    (ops : List Op) (h : (reg n).isSome) :
    ((applyOps reg ops) n).isSome :=
  applyOps_preserves_presence ops reg n h

/-- Witness for C7 at a concrete input: register "a", then run a set on it,
a colliding create and an evaluation; "a" is still present. -/
theorem registry_entries_never_removed_witness :
    ((applyOps (DynamicLevelFilter.new Registry.empty "a" LevelFilter.Info).1
        [Op.setLevel "a" LevelFilter.Warn, Op.create "a" LevelFilter.Off,
          Op.evaluate "a" Level.Error]) "a").isSome :=
  registry_entries_never_removed
    (DynamicLevelFilter.new Registry.empty "a" LevelFilter.Info).1 "a"
    [Op.setLevel "a" LevelFilter.Warn, Op.create "a" LevelFilter.Off,
      Op.evaluate "a" Level.Error] (by decide)

/-- Claim C8: the deserializer always succeeds on a parsed record, building
the filter through `new` regardless of the registry state (so a name
collision cannot fail it), and the full load path fails exactly on a
malformed raw record. -/
theorem deserialize_total_and_fails_only_on_malformed (reg : Registry)
    (c : DynamicLevelFilterConfig) (r : RawConfigRecord) :
    DynamicLevelFilterDeserializer.deserialize reg c =
      Except.ok (DynamicLevelFilter.new reg c.name c.default) ∧
    ((loadConfig reg r).isOk = true ↔ r.wellFormed) := by
  refine ⟨rfl, ?_⟩
  unfold loadConfig parseConfigRecord RawConfigRecord.wellFormed
  obtain ⟨nm, tok⟩ := r
  cases nm with
  | none => simp [Except.isOk, Except.toBool]
  | some nval =>
      cases tok with
      | none => simp [Except.isOk, Except.toBool]
      | some tval =>
          cases hp : parseLevelToken tval with
          | none =>
              simp [hp, Except.isOk, Except.toBool]
          | some lv =>
              simp [hp, Except.isOk, Except.toBool,
                DynamicLevelFilterDeserializer.deserialize]

/-- Claim C9: frame properties. `new n t` leaves every other key unchanged
and never overwrites a present entry; `set n t` changes at most the entry
for `n`; evaluation reads only the entry for the handle name (two registries
agreeing there evaluate identically). -/
theorem frame_properties (reg reg2 : Registry) (n k : String)
    (t : LevelFilter) (f : DynamicLevelFilter) (s : Level)
    (hk : k ≠ n) (hr : reg2 f.name = reg f.name) :
    (DynamicLevelFilter.new reg n t).1 k = reg k ∧
    (∀ t0, reg n = some t0 →
      (DynamicLevelFilter.new reg n t).1 n = some t0) ∧
    DynamicLevelFilter.set reg n t k = reg k ∧
    DynamicLevelFilter.filter reg2 f s = DynamicLevelFilter.filter reg f s := by
  refine ⟨?_, ?_, ?_, ?_⟩
  · cases hc : reg n with
    | none =>
        rw [new_fst_of_absent reg n t hc]
        simp [hk]
    | some t0 =>
        rw [new_fst_of_present reg n t (by rw [hc]; rfl)]
  · intro t0 h0
    rw [new_fst_of_present reg n t (by rw [h0]; rfl), h0]
  · cases hc : reg n with
    | none => rw [set_of_absent reg n t hc]
    | some t0 =>
        rw [set_of_present reg n t t0 hc]
        simp [hk]
  · unfold DynamicLevelFilter.filter
    rw [hr]

/-- Witness for C9 at a concrete input: operations on "a" do not disturb
key "b", and evaluation agrees across two registries equal at the handle
name. -/
theorem frame_properties_witness :
    (DynamicLevelFilter.new Registry.empty "a" LevelFilter.Info).1 "b" =
      Registry.empty "b" ∧
    (∀ t0, Registry.empty "a" = some t0 →
      (DynamicLevelFilter.new Registry.empty "a" LevelFilter.Info).1 "a" =
        some t0) ∧
    DynamicLevelFilter.set Registry.empty "a" LevelFilter.Info "b" =
      Registry.empty "b" ∧
    DynamicLevelFilter.filter Registry.empty ⟨"a"⟩ Level.Warn =
      DynamicLevelFilter.filter Registry.empty ⟨"a"⟩ Level.Warn :=
  frame_properties Registry.empty Registry.empty "a" "b" LevelFilter.Info
    ⟨"a"⟩ Level.Warn (by decide) rfl

/-- Claim C10: a handle whose registered threshold is Off rejects records of
every severity, Error included. -/
theorem filter_off_rejects_all (reg : Registry) (f : DynamicLevelFilter)
    (s : Level) (h : reg f.name = some LevelFilter.Off) :
    DynamicLevelFilter.filter reg f s = some Response.Reject := by
  rw [filter_eval reg f LevelFilter.Off s h]
  cases s <;> rfl

/-- Witness for C10 at a concrete input: a filter registered at Off rejects
an Error record. -/
theorem filter_off_rejects_all_witness :
    DynamicLevelFilter.filter
        (DynamicLevelFilter.new Registry.empty "a" LevelFilter.Off).1
        ⟨"a"⟩ Level.Error = some Response.Reject :=
  filter_off_rejects_all
    (DynamicLevelFilter.new Registry.empty "a" LevelFilter.Off).1
    ⟨"a"⟩ Level.Error (by decide)
